import Mathlib

/-!
Verification of the trial/phase timing and event-logging core of the
exptools2 repository (files src/exptools2/core/session.py and
src/exptools2/core/trial.py), via a shallow embedding in Lean 4.

Conventions of the embedding:
* python floats that hold clock readings and durations are modelled as `Rat`;
* fallible python code (indexing that can raise, subtraction from `None`)
  is modelled with `Option` / `Except`, where `none` / `.error` marks a raise;
* the pandas `DataFrame` global log is modelled as a `List LogRow` in append
  order; the arbitrary per-trial parameter columns are orthogonal to every
  claim below and are omitted from the row type.
-/

namespace Exptools2

/-- One row of `Session.global_log` (session.py, lines 75-84: columns
`trial_nr`, `onset`, `event_type`, `phase`, `response`, `rt`).
`log_phase_info` additionally writes `nr_frames`.  Fields that a given
writer does not set stay `none` (pandas `NaN`). -/
structure LogRow where
  trial_nr : Int
  onset : Rat
  event_type : String
  phase : Nat
  response : Option String := none
  rt : Option Rat := none
  nr_frames : Option Nat := none
deriving DecidableEq

/-- The four instantaneous-response event kinds listed in `Session.save_data`
(session.py line 319: `isin(["mouse_click", "key_press", "trigger", "pulse"])`). -/
def responseEventTypes : List String :=
  ["mouse_click", "key_press", "trigger", "pulse"]

/-- Whether a row is an instantaneous-response row (`save_data` line 319). -/
def isResponseRow (r : LogRow) : Bool :=
  responseEventTypes.contains r.event_type

/-- The sub-DataFrame selected by `nonresp_idx` in `save_data` (line 319):
the rows whose `event_type` is not an instantaneous-response kind,
in log order. -/
def nonrespRows (log : List LogRow) : List LogRow :=
  log.filter (fun r => !isResponseRow r)

/-- Consecutive differences: pandas `Series.diff().values[1:]` applied to the
non-response onset column (`save_data` line 323). For `[o0, o1, ..., ok]`
this is `[o1 - o0, ..., ok - o(k-1)]`. -/
def diffs : List Rat → List Rat
  | [] => []
  | [_] => []
  | a :: b :: rest => (b - a) :: diffs (b :: rest)

/-- Positional assignment `local_log.loc[nonresp_idx, "duration"] = durations`
(`save_data` line 325): walk the log; each non-response row consumes the next
entry of the durations vector, response rows keep `NaN` (here `none`). -/
def assignDurations : List LogRow → List Rat → List (Option Rat)
  | [], _ => []
  | r :: rs, ds =>
    if isResponseRow r then none :: assignDurations rs ds
    else
      match ds with
      | [] => none :: assignDurations rs []
      | d :: ds1 => some d :: assignDurations rs ds1

/-- The duration computation of `Session.save_data` (session.py lines
318-325), per log row.  `none` as overall result models the `IndexError`
raised by `.iloc[-1]` on the empty selection when the log has no
non-response row; otherwise the result holds one `Option Rat` duration per
row of the log (response rows receive `none`, i.e. `NaN`).  The rounding to
3 decimals at line 335 happens afterwards, only for persistence, and is not
part of this computation. -/
def finalizeDurations (expStop : Rat) (log : List LogRow) : Option (List (Option Rat)) :=
  let ons := (nonrespRows log).map (fun r => r.onset)
  match ons.getLast? with
  | none => none
  | some lastOnset =>
      some (assignDurations log (diffs ons ++ [expStop - lastOnset]))

/-- The onset of the first non-response row of `rest`, or `expStop` when
there is none.  This is the "next phase-onset-class row" of the
specification, used to state the claim about `finalizeDurations`. -/
def nextNonrespOnset (expStop : Rat) (rest : List LogRow) : Rat :=
  match (nonrespRows rest).head? with
  | some nxt => nxt.onset
  | none => expStop

/-- Written from the words of the specification (spec.md section 4.2):
each non-response row receives duration = next non-response onset minus its
own onset, the final non-response row (no later non-response row) receives
`expStop` minus its onset, and response rows receive no duration. -/
def durationsSpec (expStop : Rat) : List LogRow → List (Option Rat)
  | [] => []
  | r :: rs =>
    (if isResponseRow r then none
     else some (nextNonrespOnset expStop rs - r.onset)) :: durationsSpec expStop rs

/-- Recursive form of the durations vector `diffs ons ++ [expStop - last]`
used to drive the induction in the main lemma. -/
def mkDurs (expStop : Rat) : List Rat → List Rat
  | [] => []
  | [a] => [expStop - a]
  | a :: b :: rest => (b - a) :: mkDurs expStop (b :: rest)

/-- Concrete three-row log used to witness the C1 theorem: two phase rows
(named "stim", as `log_phase_info` names them) around one key press. -/
def witnessLogC1 : List LogRow :=
  [ { trial_nr := 0, onset := 1, event_type := "stim", phase := 0 },
    { trial_nr := 0, onset := 2, event_type := "key_press", phase := 0,
      response := some ("a"), rt := some 1 },
    { trial_nr := 0, onset := 3, event_type := "stim", phase := 1 } ]

/-- Concrete log whose only row is an instantaneous response. -/
def respOnlyLog : List LogRow :=
  [ { trial_nr := 0, onset := 1, event_type := "key_press", phase := 0,
      response := some ("a"), rt := some 1 } ]

/-- Python runtime values as far as `get_events` manipulates them: key names
(strings), clock timestamps (numbers) and the `(key, timestamp)` pairs
returned by `event.getKeys(timeStamped=...)`. -/
inductive PyVal where
  | pstr (s : String)
  | pnum (q : Rat)
  | ppair (a b : PyVal)
deriving DecidableEq

/-- Python equality (`==`) on the values above: values of different shapes
compare unequal, pairs compare componentwise. -/
def pyEq : PyVal → PyVal → Bool
  | .pstr a, .pstr b => a == b
  | .pnum a, .pnum b => a == b
  | .ppair a c, .ppair b d => pyEq a b && pyEq c d
  | _, _ => false

/-- Python membership (`x in xs`) over a list, using `pyEq`. -/
def pyIn (x : PyVal) : List PyVal → Bool
  | [] => false
  | y :: ys => pyEq x y || pyIn x ys

/-- The raw key-event batch as stored in
`session.keys_pressed_last_frame = events` (trial.py line 178): the full
list of `(key, timestamp)` pairs, not the bare key names. -/
def rawBatch (events : List (String × Rat)) : List PyVal :=
  events.map (fun e => .ppair (.pstr e.1) (.pnum e.2))

/-- One event row produced by the input-event collector
(`Trial._log_event` call sites in `Trial.get_events`). -/
structure LoggedEvent where
  event_type : String
  response : String
  t : Rat
deriving DecidableEq

/-- The keyboard half of `Trial.get_events` (trial.py lines 159-175): walk
the batch; on the quit key return immediately (second component `true`,
remaining keys unprocessed); otherwise log the key as `pulse` (if it equals
the configured trigger key) or `key_press`, unless the membership test
`key not in keys_pressed_last_frame` fails — the test the source performs,
comparing the key string against the stored `(key, timestamp)` pairs. -/
def processKeyBatch (mriTrigger : String) (prev : List PyVal) :
    List (String × Rat) → List LoggedEvent × Bool
  | [] => ([], false)
  | (key, t) :: rest =>
    if key = "q" then ([], true)
    else
      let tail := processKeyBatch mriTrigger prev rest
      if pyIn (.pstr key) prev then tail
      else
        ({ event_type := if key = mriTrigger then "pulse" else "key_press",
           response := key, t := t } :: tail.1, tail.2)

/-- One frame of keyboard collection: process the batch, then (unless the
quit key short-circuited the loop before line 178 ran) store this frame
raw batch as `keys_pressed_last_frame`.  Returns (logged rows, new stored
batch, quit flag). -/
def keyFrame (mriTrigger : String) (prev : List PyVal)
    (events : List (String × Rat)) : List LoggedEvent × List PyVal × Bool :=
  let res := processKeyBatch mriTrigger prev events
  if res.2 then (res.1, prev, true) else (res.1, rawBatch events, false)

/-- The first-trial flip-compensation step of `Trial.run` (trial.py lines
235-242): when `session.first_trial` is set, shrink the first phase
duration — by `1/actual_framerate * 1.1` under seconds timing, by one frame
otherwise — and clear the flag; `none` models the `IndexError` of
`phase_durations[0]` on an empty list.  Returns the adjusted durations and
the new `first_trial` flag. -/
def adjustFirstTrial (firstTrial : Bool) (timing : String)
    (actualFramerate : Rat) (durs : List Rat) : Option (List Rat × Bool) :=
  if firstTrial then
    match durs with
    | [] => none
    | d0 :: rest =>
        some ((if timing = "seconds" then d0 - 1 / actualFramerate * (11 / 10 : Rat)
               else d0 - 1) :: rest, false)
  else some (durs, firstTrial)

/-- The pointer half of `Trial.get_events` (trial.py lines 180-204), loop
body for the digits of `virtual_response_box` (the background rectangle at
index 0 is skipped by the `continue`; `create_virtual_response_box` in
stimuli.py builds exactly one digit stimulus per entry of
`settings["numpad"]["digits"]`, in order, after the rectangle, so the pad
is modelled as the list of (digit code, contains-the-cursor) pairs in that
order).  On a press edge (`getPressed()[0]` and not `mouse_was_pressed`)
each containing digit is appended to `clicked_digits`; as soon as
`clicked_digits` is non-empty the response `digits[clicked_digits[0]]` is
resolved and the loop breaks.  Returns the resolved response, if any. -/
def mouseScanAux (pressed wasPressed : Bool) :
    List (String × Bool) → List String → Option String
  | [], _ => none
  | (digit, c) :: rest, clicked =>
    if pressed && !wasPressed then
      let clicked1 := if c then clicked ++ [digit] else clicked
      match clicked1 with
      | resp :: _ => some resp
      | [] => mouseScanAux pressed wasPressed rest clicked1
    else mouseScanAux pressed wasPressed rest clicked

/-- One frame of pointer collection (trial.py lines 180-204): scan the pad;
a resolved response is logged as one `mouse_click` row at clock time `t`;
afterwards `mouse_was_pressed` is set to the current pressed state (line
204).  Returns (logged rows, new `mouse_was_pressed`). -/
def processMouse (pad : List (String × Bool)) (pressed wasPressed : Bool)
    (t : Rat) : List LoggedEvent × Bool :=
  match mouseScanAux pressed wasPressed pad [] with
  | some resp => ([{ event_type := "mouse_click", response := resp, t := t }], pressed)
  | none => ([], pressed)

/-- Iterated pointer collection: `n` consecutive frames during which the
button is held down (pressed every frame), starting from a given
`mouse_was_pressed` state, with the cursor kept over the same pad.
Concatenates the rows logged over the frames. -/
def holdFrames (pad : List (String × Bool)) (t : Rat) :
    Nat → Bool → List LoggedEvent
  | 0, _ => []
  | n + 1, wasPressed =>
    let r := processMouse pad true wasPressed t
    r.1 ++ holdFrames pad t n r.2

/-- The `event_type` written by `Trial.log_phase_info` for a phase-onset row
(trial.py line 117): `phase_names[phase]`, i.e. the name of the phase;
`none` models the raise when the index is out of range or `phase_names` is
not indexable. -/
def phaseOnsetEventType (phaseNames : List String) (phase : Nat) : Option String :=
  phaseNames.get? phase

/-- The five-value `event_type` enum stated by the specification. -/
def eventTypeEnum : List String :=
  ["phase_onset", "key_press", "mouse_click", "pulse", "trigger"]

/-- The part of the `Session` state that `close` / `quit` touch
(session.py): the `closed` guard flag, the `test` flag that suppresses
persistence, the experiment-stop timestamp, and a count of how many times
the log has been persisted by `save_data` (0 or 1 in any real run). -/
structure SessionState where
  closed : Bool
  test : Bool
  expStop : Option Rat
  savedCount : Nat
deriving DecidableEq

/-- `Session.close` (session.py lines 235-256): return immediately when
already closed; otherwise timestamp the experiment end, persist via
`save_data` unless in test mode, and set the `closed` flag.  `save_data`
runs the duration finalization of `finalizeDurations`; its failure (C3)
propagates, modelled by `none`, and in that case `closed` is never set. -/
def closeSession (now : Rat) (log : List LogRow) (s : SessionState) :
    Option SessionState :=
  if s.closed then some s
  else
    let s1 : SessionState := { s with expStop := some now }
    if s1.test then some { s1 with closed := true }
    else
      match finalizeDurations now log with
      | none => none
      | some _ => some { s1 with savedCount := s1.savedCount + 1, closed := true }

/-- `Session.quit` (session.py lines 302-308): call `close` when not yet
closed, then terminate the process (termination itself is outside the
model). -/
def quitSession (now : Rat) (log : List LogRow) (s : SessionState) :
    Option SessionState :=
  if !s.closed then closeSession now log s else some s

/-- The runtime state of `Trial.run` relevant to the exit flags: current
phase index, the two flags set by `stop_phase` / `stop_trial`, and a count
of `session.timer.reset()` calls. -/
structure RunState where
  phase : Nat
  exitPhase : Bool
  exitTrial : Bool
  timerResets : Nat
deriving DecidableEq

/-- The flag-consumption step after each phase drawing loop in `Trial.run`
(trial.py lines 275-280): if `exit_phase` is set, reset the timer and clear
the flag; then if `exit_trial` is set, reset the timer and break out of the
phase loop (second component `true`).  `exit_trial` itself is not written
here. -/
def afterLoop (st : RunState) : RunState × Bool :=
  let st1 :=
    if st.exitPhase then
      { st with timerResets := st.timerResets + 1, exitPhase := false }
    else st
  if st1.exitTrial then ({ st1 with timerResets := st1.timerResets + 1 }, true)
  else (st1, false)

/-- External signals raised inside one phase drawing loop, via `stop_phase`
and `stop_trial` (e.g. from a drawing routine reacting to a response). -/
structure PhaseSignals where
  sigPhase : Bool
  sigTrial : Bool
deriving DecidableEq

/-- The phase loop of `Trial.run` (trial.py lines 244-283), with the
drawing loop of each phase abstracted into the signals it may raise: set
the flags any signals raised, run the post-loop flag handling, stop on
break, otherwise advance the phase index (except on the last phase) and
continue with the remaining phases. -/
def runPhases (nPhases : Nat) : List PhaseSignals → RunState → RunState
  | [], st => st
  | sig :: rest, st =>
    let stl :=
      { st with exitPhase := st.exitPhase || sig.sigPhase,
                exitTrial := st.exitTrial || sig.sigTrial }
    let step := afterLoop stl
    if step.2 then step.1
    else
      runPhases nPhases rest
        (if step.1.phase ≠ nPhases - 1 then { step.1 with phase := step.1.phase + 1 }
         else step.1)

/-- Concrete state with both exit flags observed, for the C8 witness. -/
def bothFlagsState : RunState :=
  { phase := 0, exitPhase := true, exitTrial := true, timerResets := 0 }

/-- A phase-duration value as Python sees it: `isinstance(dur, int)`
distinguishes int values from float values (an integral float such as 2.0
is not an int). -/
inductive PyDur where
  | pyInt (n : Int)
  | pyFloat (q : Rat)
deriving DecidableEq

/-- The `isinstance(dur, int)` test of `_check_params` (trial.py line 75). -/
def PyDur.isInt : PyDur → Bool
  | .pyInt _ => true
  | .pyFloat _ => false

/-- `TIMING_OPTS` of `Trial._check_params` (trial.py line 70). -/
def TIMING_OPTS : List String := ["seconds", "frames"]

/-- `Trial._check_params` (trial.py lines 68-77): raise a `ValueError` when
the timing mode is not one of `TIMING_OPTS`, or when timing is frames and
some phase duration is not an int; otherwise return normally. -/
def checkParams (timing : String) (phaseDurations : List PyDur) :
    Except String Unit :=
  if timing ∉ TIMING_OPTS then
    Except.error ("Please set timing to one of " ++ String.intercalate ", " TIMING_OPTS)
  else if timing = "frames" && !(phaseDurations.all PyDur.isInt) then
    Except.error ("Durations should be integers when timing is set to frames!")
  else Except.ok ()

/-- The fields of a freshly constructed `Trial` that the claims reference. -/
structure TrialData where
  trialNr : Int
  phaseDurations : List PyDur
  timing : String
  startTrial : Option Rat
  exitPhase : Bool
  exitTrial : Bool
  phase : Nat
deriving DecidableEq

/-- `Trial.__init__` (trial.py lines 49-66): store the configuration, set
`start_trial = None`, clear both exit flags, start at phase 0, and run
`_check_params` once; a validation failure propagates out of the
constructor.  No other code path performs this validation. -/
def mkTrial (trialNr : Int) (phaseDurations : List PyDur) (timing : String) :
    Except String TrialData :=
  match checkParams timing phaseDurations with
  | Except.error e => Except.error e
  | Except.ok _ =>
      Except.ok { trialNr := trialNr, phaseDurations := phaseDurations,
                  timing := timing, startTrial := none, exitPhase := false,
                  exitTrial := false, phase := 0 }

/-- The `start_trial` update of `Trial.log_phase_info` (trial.py lines
96-102): the trial start time is set when, and only when, the phase-0
onset is logged. -/
def logPhaseStartTrial (startTrial : Option Rat) (phase : Nat) (onset : Rat) :
    Option Rat :=
  if phase = 0 then some onset else startTrial

/-- `Trial._log_event` (trial.py lines 138-147): append a response row with
`rt = t - start_trial`; when `start_trial` is still `None` (its value from
`__init__`, trial.py line 58, until the phase-0 onset callback runs) the
subtraction `t - None` raises a `TypeError`, modelled by `none`. -/
def logEventRow (trialNr : Int) (phase : Nat) (startTrial : Option Rat)
    (eventType response : String) (t : Rat) : Option LogRow :=
  match startTrial with
  | none => none
  | some s =>
      some { trial_nr := trialNr, onset := t, event_type := eventType,
             phase := phase, response := some response, rt := some (t - s) }

theorem mkDurs_eq_diffs_append (expStop : Rat) :
    ∀ (ons : List Rat) (a l : Rat), (a :: ons).getLast? = some l →
      diffs (a :: ons) ++ [expStop - l] = mkDurs expStop (a :: ons)
  | [], a, l, h => by
      simp only [List.getLast?_singleton, Option.some.injEq] at h
      simp [diffs, mkDurs, h]
  | b :: rest, a, l, h => by
      have h2 : (b :: rest).getLast? = some l := by
        simpa [List.getLast?_cons_cons] using h
      simp only [diffs, mkDurs, List.cons_append]
      exact congrArg _ (mkDurs_eq_diffs_append expStop rest b l h2)

theorem assignDurations_all_resp (ds : List Rat) :
    ∀ (rs : List LogRow), nonrespRows rs = [] →
      assignDurations rs ds = rs.map (fun _ => none)
  | [], _ => rfl
  | r :: rs, h => by
      cases hr : isResponseRow r with
      | false => simp [nonrespRows, List.filter_cons, hr] at h
      | true =>
          have hrs : nonrespRows rs = [] := by
            simpa [nonrespRows, List.filter_cons, hr] using h
          simp [assignDurations, hr, assignDurations_all_resp ds rs hrs]

theorem durationsSpec_all_resp (expStop : Rat) :
    ∀ (rs : List LogRow), nonrespRows rs = [] →
      durationsSpec expStop rs = rs.map (fun _ => none)
  | [], _ => rfl
  | r :: rs, h => by
      cases hr : isResponseRow r with
      | false => simp [nonrespRows, List.filter_cons, hr] at h
      | true =>
          have hrs : nonrespRows rs = [] := by
            simpa [nonrespRows, List.filter_cons, hr] using h
          simp [durationsSpec, hr, durationsSpec_all_resp expStop rs hrs]

theorem assignDurations_mkDurs (expStop : Rat) :
    ∀ (log : List LogRow), nonrespRows log ≠ [] →
      assignDurations log (mkDurs expStop ((nonrespRows log).map (fun r => r.onset))) =
        durationsSpec expStop log
  | [], h => absurd rfl h
  | r :: rs, h => by
      by_cases hr : isResponseRow r = true
      · have hcons : nonrespRows (r :: rs) = nonrespRows rs := by
          simp [nonrespRows, List.filter_cons, hr]
        have hrs : nonrespRows rs ≠ [] := by rw [hcons] at h; exact h
        have ih := assignDurations_mkDurs expStop rs hrs
        simp [assignDurations, durationsSpec, hr, hcons, ih]
      · have hr2 : isResponseRow r = false := eq_false_of_ne_true hr
        have hcons : nonrespRows (r :: rs) = r :: nonrespRows rs := by
          simp [nonrespRows, List.filter_cons, hr2]
        rw [hcons]
        cases hrs : nonrespRows rs with
        | nil =>
            have t1 := assignDurations_all_resp ([] : List Rat) rs hrs
            have t2 := durationsSpec_all_resp expStop rs hrs
            simp [assignDurations, durationsSpec, hr2, mkDurs, hrs,
                  nextNonrespOnset, t1, t2]
        | cons r2 tl =>
            have hrs2 : nonrespRows rs ≠ [] := by rw [hrs]; simp
            have ih := assignDurations_mkDurs expStop rs hrs2
            rw [hrs] at ih
            simp only [List.map_cons] at ih
            simp [assignDurations, durationsSpec, hr2, mkDurs, hrs,
                  nextNonrespOnset, ih]

/-- C1: for every log finalized by `save_data` (i.e. on which the duration
computation completes, which by `finalizeDurations` requires at least one
non-response row), every row whose `event_type` is not one of the
instantaneous-response kinds receives duration equal to the next such
non-response row onset minus its own onset, the final such row receives
`experiment_stop` minus its onset, and instantaneous-response rows receive
no duration — exactly the row-by-row characterisation `durationsSpec`. -/
theorem save_data_durations_spec (expStop : Rat) (log : List LogRow)
    (h : nonrespRows log ≠ []) :
    finalizeDurations expStop log = some (durationsSpec expStop log) := by
  cases hnr : nonrespRows log with
  | nil => exact absurd hnr h
  | cons r rest =>
      have hassign := assignDurations_mkDurs expStop log h
      rw [hnr] at hassign
      simp only [List.map_cons] at hassign
      cases hlast : (r.onset :: rest.map (fun x => x.onset)).getLast? with
      | none => simp at hlast
      | some l =>
          have hdurs :=
            mkDurs_eq_diffs_append expStop (rest.map (fun x => x.onset)) r.onset l hlast
          simp only [finalizeDurations, hnr, List.map_cons, hlast, hdurs, hassign]

/-- Witness for C1 at a concrete log. -/
theorem save_data_durations_spec_witness :
    nonrespRows witnessLogC1 ≠ [] ∧
      finalizeDurations 10 witnessLogC1 = some (durationsSpec 10 witnessLogC1) :=
  ⟨by decide, save_data_durations_spec 10 witnessLogC1 (by decide)⟩

/-- C3 counterexample: on a log with no non-response rows the duration
computation of `save_data` is not a no-op producing an empty duration
column — it fails (the `.iloc[-1]` access on the empty onset selection
raises `IndexError`, modelled by the `none` result). -/
theorem finalize_all_resp_cex :
    finalizeDurations 10 respOnlyLog = none ∧
      (finalizeDurations 10 respOnlyLog).isSome = false := by decide

/-- C3 amended: for every log containing no non-response rows, finalization
fails on the empty-selection last-element access (result `none`, modelling
the raised `IndexError`); it is not a no-op. -/
theorem finalize_all_resp_raises (expStop : Rat) (log : List LogRow)
    (h : nonrespRows log = []) : finalizeDurations expStop log = none := by
  simp [finalizeDurations, h]

/-- Witness for the amended C3 theorem at a concrete log. -/
theorem finalize_all_resp_raises_witness :
    nonrespRows respOnlyLog = [] ∧ finalizeDurations 5 respOnlyLog = none :=
  ⟨by decide, finalize_all_resp_raises 5 respOnlyLog (by decide)⟩

/-- C2 is false on the code: the same raw batch `[("a", 1)]` reported in two
consecutive frames still logs a `key_press` row for "a" in the second frame,
because the stored previous batch holds `(key, timestamp)` pairs while the
membership test compares the bare key string against them and can therefore
never match.  The claim (and the spec) demand zero rows in the second
frame. -/
theorem dedup_dead_second_frame_logs :
    (keyFrame "t" [] [("a", 1)]).2.1 = rawBatch [("a", 1)] ∧
      (keyFrame "t" (keyFrame "t" [] [("a", 1)]).2.1 [("a", 1)]).1 =
        [{ event_type := "key_press", response := "a", t := 1 }] := by decide

/-- C4: with the first-trial flag set, only the first phase duration is
shrunk — by `1.1 * f` (with `f` the measured frame interval
`1 / actualFramerate`) under seconds timing and by `1` under frames
timing — the remaining phases are untouched, and the flag comes back
cleared; with the flag cleared, the durations are returned unchanged, so no
later trial or phase is modified. -/
theorem first_trial_compensation (f : Rat) (d0 : Rat) (rest : List Rat)
    (timing : String) :
    adjustFirstTrial true "seconds" f (d0 :: rest) =
        some ((d0 - (11 / 10 : Rat) * (1 / f)) :: rest, false) ∧
      adjustFirstTrial true "frames" f (d0 :: rest) =
        some ((d0 - 1) :: rest, false) ∧
      adjustFirstTrial false timing f (d0 :: rest) =
        some (d0 :: rest, false) := by
  refine ⟨?_, by simp [adjustFirstTrial], by simp [adjustFirstTrial]⟩
  simp only [adjustFirstTrial, if_pos rfl, if_true, Option.some.injEq,
    Prod.mk.injEq, List.cons.injEq, and_true]
  ring

theorem mouseScanAux_no_edge (clicked : List String) :
    ∀ pad : List (String × Bool), mouseScanAux true true pad clicked = none
  | [] => rfl
  | (digit, c) :: rest => by
      simp [mouseScanAux, mouseScanAux_no_edge clicked rest]

theorem holdFrames_held (pad : List (String × Bool)) (t : Rat) :
    ∀ n : Nat, holdFrames pad t n true = []
  | 0 => rfl
  | n + 1 => by
      simp [holdFrames, processMouse, mouseScanAux_no_edge [] pad,
        holdFrames_held pad t n]

theorem mouseScanAux_first_match (digit : String) (post : List (String × Bool)) :
    ∀ pre : List (String × Bool), (∀ p ∈ pre, p.2 = false) →
      mouseScanAux true false (pre ++ (digit, true) :: post) [] = some digit
  | [], _ => by simp [mouseScanAux]
  | (d, c) :: pre, h => by
      have hc : c = false := h (d, c) (by simp)
      have hpre : ∀ p ∈ pre, p.2 = false := fun p hp => h p (by simp [hp])
      simp [mouseScanAux, hc, mouseScanAux_first_match digit post pre hpre]

/-- C5: a fresh press edge (pressed this frame, not pressed the previous
frame) over a pad whose first containing region carries code `digit` logs
exactly one `mouse_click` row, with the code of that first (lowest-index)
containing region, and holding the press for `n` further frames adds no
further rows: the whole `n + 1`-frame window logs exactly that one row. -/
theorem mouse_click_edge_once (pre post : List (String × Bool)) (digit : String)
    (t : Rat) (n : Nat) (hpre : ∀ p ∈ pre, p.2 = false) :
    holdFrames (pre ++ (digit, true) :: post) t (n + 1) false =
      [{ event_type := "mouse_click", response := digit, t := t }] := by
  have hscan := mouseScanAux_first_match digit post pre hpre
  simp [holdFrames, processMouse, hscan, holdFrames_held]

/-- Witness for C5: pad with a non-containing region before the containing
one, a press edge then two held frames. -/
theorem mouse_click_edge_once_witness :
    (∀ p ∈ [("1", false)], (p : String × Bool).2 = false) ∧
      holdFrames ([("1", false)] ++ ("2", true) :: [("3", true)]) 5 3 false =
        [{ event_type := "mouse_click", response := "2", t := 5 }] :=
  ⟨by decide, mouse_click_edge_once [("1", false)] [("3", true)] "2" 5 2 (by decide)⟩

/-- C6 counterexample: a phase-onset row for a phase named "stim" (the
default naming the spec itself mentions) is logged with `event_type`
"stim", which is not one of the five enum values — `log_phase_info` writes
the phase name, never the literal `phase_onset`. -/
theorem phase_row_event_type_cex :
    phaseOnsetEventType ["stim"] 0 = some ("stim") ∧
      "stim" ∉ eventTypeEnum := by decide

theorem processKeyBatch_types (trig : String) (prev : List PyVal) :
    ∀ evs : List (String × Rat), ∀ e ∈ (processKeyBatch trig prev evs).1,
      e.event_type = "pulse" ∨ e.event_type = "key_press"
  | [] => by simp [processKeyBatch]
  | (key, t) :: rest => by
      intro e he
      by_cases hq : key = "q"
      · simp [processKeyBatch, hq] at he
      · have ih := processKeyBatch_types trig prev rest
        by_cases hp : pyIn (.pstr key) prev
        · simp only [processKeyBatch, if_neg hq, if_pos hp] at he
          exact ih e he
        · simp only [processKeyBatch, if_neg hq, if_neg hp,
            List.mem_cons] at he
          rcases he with he | he
          · subst he
            by_cases ht : key = trig <;> simp [ht]
          · exact ih e he

/-- C6 amended: every row appended by the input-event logging paths has
`event_type` among `pulse` / `key_press` (keyboard) or `mouse_click`
(pointer), while a row appended by the phase-onset logging path carries the
phase name from `phase_names` — an arbitrary caller-supplied label that is
not constrained to the five-value enum. -/
theorem event_type_ranges (trig : String) (prev : List PyVal)
    (evs : List (String × Rat)) (pad : List (String × Bool))
    (pressed wasPressed : Bool) (t : Rat) (names : List String) (phase : Nat) :
    (∀ e ∈ (processKeyBatch trig prev evs).1,
        e.event_type = "pulse" ∨ e.event_type = "key_press") ∧
      (∀ e ∈ (processMouse pad pressed wasPressed t).1,
        e.event_type = "mouse_click") ∧
      (∀ s, phaseOnsetEventType names phase = some s → s ∈ names) := by
  refine ⟨processKeyBatch_types trig prev evs, ?_, ?_⟩
  · intro e he
    unfold processMouse at he
    cases hscan : mouseScanAux pressed wasPressed pad [] with
    | none => rw [hscan] at he; simp at he
    | some resp => rw [hscan] at he; simp at he; rw [he]
  · intro s hs
    exact List.get?_mem hs

/-- Witness for the amended C6 theorem at concrete inputs. -/
theorem event_type_ranges_witness :
    (({ event_type := "key_press", response := "a", t := 1 } : LoggedEvent).event_type = "pulse" ∨
      ({ event_type := "key_press", response := "a", t := 1 } : LoggedEvent).event_type = "key_press") ∧
      ({ event_type := "mouse_click", response := "2", t := 5 } : LoggedEvent).event_type = "mouse_click" ∧
      "stim" ∈ ["stim"] :=
  ⟨(event_type_ranges "t" [] [("a", 1)] [("2", true)] true false 5 ["stim"] 0).1
      { event_type := "key_press", response := "a", t := 1 } (by decide),
   (event_type_ranges "t" [] [("a", 1)] [("2", true)] true false 5 ["stim"] 0).2.1
      { event_type := "mouse_click", response := "2", t := 5 } (by decide),
   (event_type_ranges "t" [] [("a", 1)] [("2", true)] true false 5 ["stim"] 0).2.2
      "stim" (by decide)⟩

/-- C7: `close` is idempotent.  After a first completed `close`, the flag is
set, any further `close` — directly or through `quit` — returns the state
unchanged without a second persistence and without failing, and the pair of
calls persisted the log exactly once (not at all in test mode). -/
theorem close_idempotent (now1 now2 : Rat) (log : List LogRow)
    (s s1 : SessionState) (hopen : s.closed = false)
    (h1 : closeSession now1 log s = some s1) :
    s1.closed = true ∧
      closeSession now2 log s1 = some s1 ∧
      quitSession now2 log s1 = some s1 ∧
      s1.savedCount = s.savedCount + (if s.test then 0 else 1) := by
  rw [closeSession, if_neg (by simp [hopen])] at h1
  by_cases ht : s.test
  · rw [if_pos ht] at h1
    cases h1
    refine ⟨rfl, ?_, ?_, by simp [ht]⟩
    · rw [closeSession]; rfl
    · rw [quitSession]; rfl
  · rw [if_neg ht] at h1
    cases hfin : finalizeDurations now1 log with
    | none => rw [hfin] at h1; cases h1
    | some ds =>
        rw [hfin] at h1
        cases h1
        refine ⟨rfl, ?_, ?_, by simp [ht]⟩
        · rw [closeSession]; rfl
        · rw [quitSession]; rfl

/-- Witness for C7: a fresh non-test session with a one-phase-row log,
closed twice. -/
theorem close_idempotent_witness :
    (({ closed := false, test := false, expStop := none,
        savedCount := 0 } : SessionState).closed = false) ∧
      closeSession 4 [{ trial_nr := 0, onset := 1, event_type := "stim", phase := 0 }]
          { closed := false, test := false, expStop := none, savedCount := 0 } =
        some { closed := true, test := false, expStop := some 4, savedCount := 1 } ∧
      closeSession 6 [{ trial_nr := 0, onset := 1, event_type := "stim", phase := 0 }]
          { closed := true, test := false, expStop := some 4, savedCount := 1 } =
        some { closed := true, test := false, expStop := some 4, savedCount := 1 } :=
  ⟨rfl, by decide,
   (close_idempotent 4 6 [{ trial_nr := 0, onset := 1, event_type := "stim", phase := 0 }]
      { closed := false, test := false, expStop := none, savedCount := 0 }
      { closed := true, test := false, expStop := some 4, savedCount := 1 }
      rfl (by decide)).2.1⟩

/-- C8 counterexample: a single-phase run during which `stop_trial` is
raised ends with `exit_trial` still `true` — the loop step that observes it
breaks out and resets the timer but never resets the flag to `false`,
contrary to the claim that each observed flag is consumed. -/
theorem exit_trial_not_reset_cex :
    (runPhases 1 [{ sigPhase := false, sigTrial := true }]
        { phase := 0, exitPhase := false, exitTrial := false, timerResets := 0 }).exitTrial =
      true := by decide

/-- C8 amended: at the loop step that observes the flags, an observed
`exit_phase` is reset to `false`, an observed `exit_trial` terminates the
phase loop but stays `true`, and the phase timer is reset exactly once per
observed flag (so twice when both are observed). -/
theorem exit_flags_consumption (st : RunState) :
    (st.exitPhase = true → (afterLoop st).1.exitPhase = false) ∧
      (st.exitTrial = true →
        (afterLoop st).1.exitTrial = true ∧ (afterLoop st).2 = true) ∧
      (afterLoop st).1.timerResets =
        st.timerResets + (if st.exitPhase then 1 else 0) +
          (if st.exitTrial then 1 else 0) := by
  cases hp : st.exitPhase <;> cases htr : st.exitTrial <;>
    simp [afterLoop, hp, htr]

/-- Witness for the amended C8 theorem with both flags observed. -/
theorem exit_flags_consumption_witness :
    (afterLoop bothFlagsState).1.exitPhase = false ∧
      (afterLoop bothFlagsState).1.exitTrial = true ∧
      (afterLoop bothFlagsState).1.timerResets = 2 :=
  ⟨(exit_flags_consumption bothFlagsState).1 rfl,
   ((exit_flags_consumption bothFlagsState).2.1 rfl).1,
   (exit_flags_consumption bothFlagsState).2.2⟩

/-- C9: trial construction succeeds exactly on the valid configurations —
the timing mode is `seconds` or `frames`, and under `frames` every phase
duration is an integer; on every other configuration the constructor
raises. -/
theorem trial_construction_validates (trialNr : Int) (timing : String)
    (durs : List PyDur) :
    (∃ td, mkTrial trialNr durs timing = Except.ok td) ↔
      ((timing = "seconds" ∨ timing = "frames") ∧
        (timing = "frames" → durs.all PyDur.isInt = true)) := by
  by_cases hs : timing = "seconds"
  · subst hs
    simp [mkTrial, checkParams, TIMING_OPTS]
  · by_cases hf : timing = "frames"
    · subst hf
      cases ha : durs.all PyDur.isInt with
      | true => simp [mkTrial, checkParams, TIMING_OPTS, ha]
      | false => simp [mkTrial, checkParams, TIMING_OPTS, ha]
    · simp [mkTrial, checkParams, TIMING_OPTS, hs, hf]

/-- C10: logging an input event succeeds exactly under the precondition
that the phase-0 onset callback already ran: that callback sets
`start_trial`, with it set the logged row has `rt` = event onset minus the
trial start time, and with it unset (`none`) the `rt` computation fails. -/
theorem log_event_requires_start (trialNr : Int) (phase : Nat) (s t : Rat)
    (eventType response : String) (startTrial : Option Rat) :
    logPhaseStartTrial startTrial 0 t = some t ∧
      logEventRow trialNr phase (some s) eventType response t =
        some { trial_nr := trialNr, onset := t, event_type := eventType,
               phase := phase, response := some response, rt := some (t - s) } ∧
      logEventRow trialNr phase none eventType response t = none :=
  ⟨rfl, rfl, rfl⟩

end Exptools2
